import Mathlib

/-!
Verification of the dynamic schema inference and ingestion engine of
`excel_json_to_DB_insert_mysql` (files `upload_functions.py`,
`excel_to_db_example.py`, `main.py`).

The embedding models a pandas column as a name, a dtype tag and a list of
values; missing entries (`None` / `NaN` / `NaT` / `NA`) are `Value.vNull`.
Float entries are modelled exactly as rationals: an IEEE double has zero
fractional part exactly when its rational value is an integer, which is all
the code ever asks of a float (`x.is_integer()`), and `astype('Int64')` on
such a value yields that integer.
-/

namespace ExcelJsonDB

/-- The pandas dtype classes the two `safe_convert_for_mysql` copies and
`get_mysql_type` dispatch on (`is_float_dtype`, `CategoricalDtype`,
`is_object_dtype`, `is_datetime64_dtype`, `is_timedelta64_dtype`,
`is_bool_dtype`, `is_integer_dtype`); `other` is any dtype matching none of
those predicates (e.g. `complex128`). `int64` covers the integer dtypes,
including nullable `Int64`. -/
inductive Dtype
  | float
  | categorical
  | object
  | datetime64
  | timedelta64
  | bool
  | int64
  | other
deriving DecidableEq

/-- One cell of a column. `vDT s` is a native timestamp whose
`strftime('%Y-%m-%d %H:%M:%S')` rendering is `s`; `vTD q` is a timedelta
whose `total_seconds()` is `q`; `vComposite r` is a `list`/`dict`/`set`/
`tuple` value whose `str(...)` is `r`. -/
inductive Value
  | vNull
  | vInt (n : ℤ)
  | vFloat (q : ℚ)
  | vBool (b : Bool)
  | vStr (s : String)
  | vDT (s : String)
  | vTD (secs : ℚ)
  | vComposite (r : String)
deriving DecidableEq

/-- Python `str(...)` of a float value, as used for a timedelta's
`str(x.total_seconds())`.  Only the fact that it is some string matters to
the code (it is compared and measured, never parsed back). -/
def floatRepr (q : ℚ) : String :=
  if q.den = 1 then toString q.num ++ ".0"
  else toString q.num ++ "/" ++ toString q.den

/-- Python `str(...)` of one cell, as applied elementwise by
`astype(str)` on an object column (`str(None)` is the four-character
string "None"). -/
def pyStr : Value → String
  | .vNull => "None"
  | .vInt n => toString n
  | .vFloat q => floatRepr q
  | .vBool b => if b then "True" else "False"
  | .vStr s => s
  | .vDT s => s
  | .vTD q => floatRepr q
  | .vComposite r => r

/-- One named column of the dataframe. -/
structure Column where
  name : String
  dtype : Dtype
  values : List Value
deriving DecidableEq

/-- The non-missing entries of a column (`Series.dropna()`). -/
def presentVals (vs : List Value) : List Value :=
  vs.filter (fun v => v != Value.vNull)

/-- `df[column].astype(str)`: every cell stringified (missing cells
included), resulting dtype `object`. -/
def astypeStrCol (c : Column) : Column :=
  ⟨c.name, .object, c.values.map (fun v => Value.vStr (pyStr v))⟩

/-- `x.is_integer()` on a float cell: zero fractional part. -/
def valIsInteger : Value → Bool
  | .vFloat q => q.den == 1
  | _ => false

/-- `astype('Int64')` on one cell of an all-integral float column: the
float becomes its integer value, `NaN` becomes `NA` (still missing).
The guard in the caller ensures `q.den = 1` for every present cell. -/
def toInt64Val : Value → Value
  | .vFloat q => .vInt q.num
  | v => v

/-- Whether `s` matches the fixed pattern `%Y-%m-%d %H:%M:%S` that
`pd.to_datetime(..., format="%Y-%m-%d %H:%M:%S", errors='coerce')`
accepts: 19 characters, digits at the date/time positions and the three
separators in place. -/
def validDT (s : String) : Bool :=
  match s.data with
  | [y1, y2, y3, y4, d1, mo1, mo2, d2, da1, da2, sp, h1, h2, c1, mi1, mi2, c2, se1, se2] =>
    ([y1, y2, y3, y4, mo1, mo2, da1, da2, h1, h2, mi1, mi2, se1, se2].all Char.isDigit)
      && d1 == '-' && d2 == '-' && sp == ' ' && c1 == ':' && c2 == ':'
  | _ => false

/-- One cell under `pd.to_datetime(..., format=..., errors='coerce')`:
a string in the fixed format parses (and re-renders as itself), a native
timestamp passes through, everything else (missing cells included)
becomes `NaT`. -/
def tryParseDT : Value → Option String
  | .vStr s => if validDT s then some s else none
  | .vDT s => some s
  | _ => none

/-- The object-dtype branch shared verbatim by both copies of
`safe_convert_for_mysql`: if the first non-missing cell (the `sample_value`
taken at the top of the loop) is composite, stringify the non-missing
cells in place; then try `pd.to_datetime` on the whole column with the
fixed format; if at least one cell parses, keep the parsed column rendered
in that format (cells that fail to parse become missing), otherwise
`astype(str)` the column. -/
def objectBranch (vs : List Value) : List Value :=
  let vs1 :=
    match (presentVals vs).head? with
    | some (.vComposite _) =>
        vs.map (fun v => if v == Value.vNull then Value.vNull else Value.vStr (pyStr v))
    | _ => vs
  let parsed := vs1.map tryParseDT
  if 0 < (parsed.filter Option.isSome).length then
    parsed.map (fun o => match o with | some s => Value.vStr s | none => Value.vNull)
  else
    vs1.map (fun v => Value.vStr (pyStr v))

/-- `x.strftime(...)` applied by `.dt.strftime` on a datetime64 column:
timestamps render to their fixed-format string, `NaT` renders to missing. -/
def dtRender : Value → Value
  | .vDT s => .vStr s
  | v => v

/-- `str(x.total_seconds()) if pd.notnull(x) else None` on a timedelta64
column. -/
def tdRender : Value → Value
  | .vTD q => .vStr (floatRepr q)
  | v => v

/-- `safe_convert_for_mysql` of `upload_functions.py` (lines 42-77), on one
column.  The branch ladder: a column with no non-missing cell is
`astype(str)`; a float column whose present cells are all integral becomes
nullable `Int64` (no else: a non-integral float column passes through);
categorical is `astype(str)`; object runs `objectBranch`; datetime64 is
`strftime`-rendered (resulting dtype `object`); timedelta64 becomes seconds
text.  Any other dtype (bool, integer, complex, ...) matches no branch and
the column passes through unchanged. -/
def safe_convert_col_uf (c : Column) : Column :=
  if (presentVals c.values).isEmpty then astypeStrCol c
  else
    match c.dtype with
    | .float =>
        if (presentVals c.values).all valIsInteger then
          ⟨c.name, .int64, c.values.map toInt64Val⟩
        else c
    | .categorical => astypeStrCol c
    | .object => ⟨c.name, .object, objectBranch c.values⟩
    | .datetime64 => ⟨c.name, .object, c.values.map dtRender⟩
    | .timedelta64 => ⟨c.name, .object, c.values.map tdRender⟩
    | _ => c

/-- `safe_convert_for_mysql` of `excel_to_db_example.py` (lines 35-97), on
one column.  Identical ladder, but with explicit `pass` branches for bool
and integer dtypes and a final `else: df[column] = df[column].astype(str)`
that stringifies any column whose dtype matches none of the earlier
branches. -/
def safe_convert_col_ex (c : Column) : Column :=
  if (presentVals c.values).isEmpty then astypeStrCol c
  else
    match c.dtype with
    | .float =>
        if (presentVals c.values).all valIsInteger then
          ⟨c.name, .int64, c.values.map toInt64Val⟩
        else c
    | .categorical => astypeStrCol c
    | .object => ⟨c.name, .object, objectBranch c.values⟩
    | .datetime64 => ⟨c.name, .object, c.values.map dtRender⟩
    | .timedelta64 => ⟨c.name, .object, c.values.map tdRender⟩
    | .bool => c
    | .int64 => c
    | .other => astypeStrCol c

/-- The integer cells of a column (`Series.max()` on an integer column
skips missing entries). -/
def presentInts (vs : List Value) : List ℤ :=
  vs.filterMap (fun v => match v with | .vInt n => some n | _ => none)

/-- `column_values.max()` on an integer column: the maximum of the
non-missing cells.  On a column with no present integer pandas yields `NA`
(and the comparison below would raise); that case is unreachable for
columns produced by `safe_convert_for_mysql`, and the value returned here
for it is immaterial. -/
def seriesMaxInt (vs : List Value) : ℤ :=
  match presentInts vs with
  | [] => 0
  | x :: xs => xs.foldl max x

/-- The if-ladder of the integer branch of `get_mysql_type`. -/
def intWidthName (m : ℤ) : String :=
  if m ≤ 127 then "TINYINT"
  else if m ≤ 32767 then "SMALLINT"
  else if m ≤ 8388607 then "MEDIUMINT"
  else if m ≤ 2147483647 then "INT"
  else "BIGINT"

/-- `get_mysql_type` (upload_functions.py lines 80-110 =
excel_to_db_example.py lines 100-134): datetime64 maps to DATETIME, bool to
TINYINT(1); an integer column is sized by `column_values.max()` (0 when the
column has no rows at all); float maps to DOUBLE; anything else is a text
tier by the maximum stringified length of the non-missing cells, with
VARCHAR(255) when every cell is missing. -/
def get_mysql_type (dt : Dtype) (vs : List Value) : String :=
  match dt with
  | .datetime64 => "DATETIME"
  | .bool => "TINYINT(1)"
  | .int64 => intWidthName (if vs.isEmpty then 0 else seriesMaxInt vs)
  | .float => "DOUBLE"
  | _ =>
    let nn := presentVals vs
    if 0 < nn.length then
      let maxLen := (nn.map (fun v => (pyStr v).length)).foldl max 0
      if maxLen ≤ 65535 then "TEXT"
      else if maxLen ≤ 16777215 then "MEDIUMTEXT"
      else "LONGTEXT"
    else "VARCHAR(255)"

/-- Column-identifier sanitization,
`col.replace(' ', '_').replace('-', '_').replace('.', '_')`: the three
sequential single-character replacements are one character map (the
replacement `_` is not itself replaced later). -/
def sanitize (s : String) : String :=
  ⟨s.data.map (fun ch => if ch = ' ' ∨ ch = '-' ∨ ch = '.' then '_' else ch)⟩

/-- Whether `startsList p l`: `p` is an initial run of `l`. -/
def startsList : List Char → List Char → Bool
  | [], _ => true
  | _ :: _, [] => false
  | p :: ps, c :: cs => p == c && startsList ps cs

/-- Whether `pat` occurs contiguously inside `l`. -/
def hasSubList (pat : List Char) : List Char → Bool
  | [] => pat.isEmpty
  | c :: cs => startsList pat (c :: cs) || hasSubList pat cs

/-- `df.columns.str.contains('unnamed', case=False)` on one name. -/
def containsUnnamed (s : String) : Bool :=
  hasSubList "unnamed".data (s.data.map Char.toLower)

/-- `df.drop(df.columns[df.columns.str.contains('unnamed', case=False)], axis=1)`:
remove the placeholder columns produced by upstream parsing. -/
def dropUnnamed (cols : List Column) : List Column :=
  cols.filter (fun c => !(containsUnnamed c.name))

/-- The alter loop of `insert_database` for an existing table
(upload_functions.py lines 146-157): for each dataframe column in order,
sanitize the name and, when it is not among the live column identifiers
and is neither `id` nor `created_at`, emit one
`ALTER TABLE ... ADD COLUMN` with the mapped type. -/
def alterPlan (cols : List Column) (existing : List String) : List (String × String) :=
  cols.filterMap (fun c =>
    let n := sanitize c.name
    if !(existing.contains n) && n != "id" && n != "created_at" then
      some (n, get_mysql_type c.dtype c.values)
    else none)

/-- A row of the dataframe in column order (`tuple(row) for row in
batch_df.values`). -/
abbrev Row := List Value

/-- `len(df)`: the row count, read off the (equal-length) columns. -/
def numRows (cols : List Column) : ℕ :=
  (cols.head?.map (fun c => c.values.length)).getD 0

/-- The rows of the dataframe, in original order. -/
def dfRows (cols : List Column) : List Row :=
  (List.range (numRows cols)).map (fun i => cols.map (fun c => c.values.getD i Value.vNull))

/-- The loop `for start_idx in range(0, total_rows, batch_size)` with
`batch_df = df.iloc[start_idx:end_idx]`: consecutive slices of at most `k`
rows.  The fuel argument starts at the list length and only bounds the
recursion; each step consumes the next slice. -/
def chunksGo (k : ℕ) : ℕ → List α → List (List α)
  | _, [] => []
  | 0, _ => []
  | fuel + 1, l => l.take k :: chunksGo k fuel (l.drop k)

/-- The batches of `l` with maximum size `k` (the code fixes `k = 1000`). -/
def chunksOf (k : ℕ) (l : List α) : List (List α) :=
  chunksGo k l.length l

/-- The observable store operations one run issues, in order. -/
inductive Event
  | createTable (cols : List (String × String))
  | addColumn (name ty : String)
  | insertBatch (rows : List Row)
  | commitEv
deriving DecidableEq

/-- Whether an event is a DDL (schema) statement. -/
def isSchemaEvent : Event → Bool
  | .createTable _ => true
  | .addColumn _ _ => true
  | _ => false

/-- The batch chunks attempted by `cursor.executemany`, read off a run's
event list. -/
def insertedChunks (evs : List Event) : List (List Row) :=
  evs.filterMap (fun ev => match ev with | .insertBatch c => some c | _ => none)

/-- How the external store behaves during one run: whether
`create_mysql_connection` yields a connection, the live table (`None` when
`SHOW TABLES` finds none, otherwise its column identifiers from
`DESCRIBE`), whether a DDL statement raises, and whether the
`executemany` of batch `i` raises (with the exception text). -/
structure StoreBehavior where
  connectOk : Bool
  existingTable : Option (List String)
  schemaFails : Option String
  batchFails : ℕ → Option String

/-- What one `insert_database` call returns through a given return
statement: the success f-string, or the text of the early return /
exception (`return str(e)`). -/
inductive Outcome
  | success (msg : String)
  | failure (msg : String)
deriving DecidableEq

/-- The returned string, forgetting which return statement produced it. -/
def resultString : Outcome → String
  | .success m => m
  | .failure m => m

/-- Everything observable about one `insert_database` run. `connClosed`
records whether `connection.close()` ran; `persisted` the rows committed
to the store (commits are never undone: no rollback exists in the code). -/
structure RunResult where
  outcome : Outcome
  events : List Event
  connAcquired : Bool
  connClosed : Bool
  persisted : List Row
deriving DecidableEq

/-- The batch loop (upload_functions.py lines 162-179), starting at batch
index `i`: each chunk is sent with `executemany` and committed before the
next chunk; if the `executemany` of some chunk raises, the loop stops
there, the chunk is not committed, and the exception text propagates. -/
def batchGo (failsOn : ℕ → Option String) : ℕ → List (List Row) → List Event × List Row × Option String
  | _, [] => ([], [], none)
  | i, c :: cs =>
    match failsOn i with
    | some e => ([.insertBatch c], [], some e)
    | none =>
      let r := batchGo failsOn (i + 1) cs
      (.insertBatch c :: .commitEv :: r.1, c ++ r.2.1, r.2.2)

/-- The schema phase of `insert_database`: create the table when `SHOW
TABLES` finds none (id column first, the sanitized dataframe columns with
their mapped types, created_at last), otherwise run the alter loop.  When
the store rejects a DDL statement the phase raises with the store's
exception text; with an existing table and an empty alter plan no DDL runs
at all. -/
def schemaPhase (store : StoreBehavior) (df : List Column) : List Event × Option String :=
  match store.existingTable with
  | none =>
    match store.schemaFails with
    | some e => ([], some e)
    | none =>
      ([.createTable (df.map (fun c => (sanitize c.name, get_mysql_type c.dtype c.values)))], none)
  | some existing =>
    let plan := alterPlan df existing
    if plan.isEmpty then ([], none)
    else
      match store.schemaFails with
      | some e => ([], some e)
      | none => (plan.map (fun p => Event.addColumn p.1 p.2), none)

/-- `insert_database(table_name, data_frame)` (upload_functions.py lines
113-187): drop the unnamed columns, coerce every column, connect (an
unusable connection returns the fixed message before any store change),
reconcile the schema, then write the rows in batches of 1000.  Any raised
exception is caught by the outer `except` and its text returned; the
`cursor.close(); connection.close()` pair runs only on the fully
successful path — the except branch does not close the connection.

First, the dataframe as it stands when `insert_database` reaches the store:
unnamed columns dropped, every remaining column coerced. -/
def processedCols (dataCols : List Column) : List Column :=
  (dropUnnamed dataCols).map safe_convert_col_uf

/-- The body of `insert_database` itself, over a given store behavior. -/
def insert_database_run (table : String) (dataCols : List Column) (store : StoreBehavior) : RunResult :=
  let df := processedCols dataCols
  if store.connectOk then
    match schemaPhase store df with
    | (sevs, some e) => ⟨.failure e, sevs, true, false, []⟩
    | (sevs, none) =>
      let b := batchGo store.batchFails 0 (chunksOf 1000 (dfRows df))
      match b.2.2 with
      | some e => ⟨.failure e, sevs ++ b.1, true, false, b.2.1⟩
      | none =>
        ⟨.success ("✓ Successfully inserted " ++ toString (numRows df)
            ++ " rows into table '" ++ table ++ "'"),
          sevs ++ b.1, true, true, b.2.1⟩
  else ⟨.failure "Failed to connect to MySQL database", [], false, false, []⟩

/-- The module-level names `upload_functions.py` defines (its imports and
the functions of lines 24-392; the module defines neither
`upload_dataframe` nor `delete_data_by_date`). -/
def uploadFunctionsDefinedNames : List String :=
  ["os", "json", "Path", "pd", "pymysql", "load_dotenv", "MYSQL_CONFIG",
   "create_mysql_connection", "safe_convert_for_mysql", "get_mysql_type",
   "insert_database", "flatten_json_to_dataframe", "upload_single_json",
   "upload_all_json_from_folder", "upload_single_excel",
   "upload_all_excel_from_folder"]

/-- The names `main.py` lines 3-10 request with
`from upload_functions import (...)`, in source order. -/
def mainImportList : List String :=
  ["upload_single_json", "upload_all_json_from_folder", "upload_single_excel",
   "upload_all_excel_from_folder", "upload_dataframe", "delete_data_by_date"]

/-- How far `python main.py` gets: a `from ... import` raises `ImportError`
at the first requested name the module does not define, before any further
statement of `main.py` (the menu loop included) runs. -/
inductive MainStart
  | importError (missing : String)
  | menuShown
deriving DecidableEq

/-- The startup of `main.py`: resolve the import list against the names
`upload_functions` defines; only if all resolve does control reach
`main()` and the menu. -/
def main_py_start : MainStart :=
  match mainImportList.find? (fun n => !(uploadFunctionsDefinedNames.contains n)) with
  | some n => .importError n
  | none => .menuShown

/-- The five integer storage-type names ordered by width, for stating
monotonicity of the width choice (any other string ranks above all five). -/
def widthRank (s : String) : ℕ :=
  if s = "TINYINT" then 0
  else if s = "SMALLINT" then 1
  else if s = "MEDIUMINT" then 2
  else if s = "INT" then 3
  else if s = "BIGINT" then 4
  else 5

/-- Whether the string `s` begins with `p` (used to state the
marker-glyph contract on result strings). -/
def strBegins (s p : String) : Bool :=
  s.data.take p.data.length == p.data

/-! ### Helper lemmas -/

theorem chunksGo_nil {α : Type} (k fuel : ℕ) : chunksGo k fuel ([] : List α) = [] := by
  cases fuel <;> rfl

theorem chunksGo_step {α : Type} (k fuel : ℕ) (a : α) (t : List α) :
    chunksGo k (fuel + 1) (a :: t) =
      (a :: t).take k :: chunksGo k fuel ((a :: t).drop k) := rfl

theorem chunksGo_join {α : Type} (k : ℕ) (hk : 0 < k) :
    ∀ (fuel : ℕ) (l : List α), l.length ≤ fuel → (chunksGo k fuel l).flatten = l := by
  intro fuel
  induction fuel with
  | zero =>
    intro l hl
    cases l with
    | nil => rfl
    | cons a t => simp at hl
  | succ n ih =>
    intro l hl
    cases l with
    | nil => rfl
    | cons a t =>
      rw [chunksGo_step, List.flatten_cons, ih]
      · exact List.take_append_drop k (a :: t)
      · rw [List.length_drop]
        simp only [List.length_cons] at hl ⊢
        omega

theorem chunksGo_mem {α : Type} (k : ℕ) (hk : 0 < k) :
    ∀ (fuel : ℕ) (l : List α), l.length ≤ fuel →
      ∀ c ∈ chunksGo k fuel l, c ≠ [] ∧ c.length ≤ k := by
  intro fuel
  induction fuel with
  | zero =>
    intro l hl c hc
    cases l with
    | nil => simp [chunksGo_nil] at hc
    | cons a t => simp at hl
  | succ n ih =>
    intro l hl c hc
    cases l with
    | nil => simp [chunksGo_nil] at hc
    | cons a t =>
      rw [chunksGo_step] at hc
      rw [List.mem_cons] at hc
      rcases hc with hc | hc
      · subst hc
        constructor
        · cases k with
          | zero => omega
          | succ m => simp [List.take]
        · rw [List.length_take]; omega
      · refine ih ((a :: t).drop k) ?_ c hc
        rw [List.length_drop]
        simp only [List.length_cons] at hl ⊢
        omega

theorem chunksGo_fuel {α : Type} (k : ℕ) (hk : 0 < k) :
    ∀ (f₁ f₂ : ℕ) (l : List α), l.length ≤ f₁ → l.length ≤ f₂ →
      chunksGo k f₁ l = chunksGo k f₂ l := by
  intro f₁
  induction f₁ with
  | zero =>
    intro f₂ l h1 h2
    cases l with
    | nil => rw [chunksGo_nil, chunksGo_nil]
    | cons a t => simp at h1
  | succ n ih =>
    intro f₂ l h1 h2
    cases l with
    | nil => rw [chunksGo_nil, chunksGo_nil]
    | cons a t =>
      cases f₂ with
      | zero => simp at h2
      | succ m =>
        rw [chunksGo_step, chunksGo_step, ih]
        · rw [List.length_drop]
          simp only [List.length_cons] at h1 ⊢
          omega
        · rw [List.length_drop]
          simp only [List.length_cons] at h2 ⊢
          omega

theorem chunksOf_nil {α : Type} (k : ℕ) : chunksOf k ([] : List α) = [] := rfl

theorem chunksOf_cons {α : Type} (k : ℕ) (hk : 0 < k) (l : List α) (hl : l ≠ []) :
    chunksOf k l = l.take k :: chunksOf k (l.drop k) := by
  obtain ⟨a, t, rfl⟩ : ∃ a t, l = a :: t := by
    cases l with
    | nil => exact absurd rfl hl
    | cons a t => exact ⟨a, t, rfl⟩
  show chunksGo k (t.length + 1) (a :: t) = _
  rw [chunksGo_step]
  congr 1
  apply chunksGo_fuel k hk
  · rw [List.length_drop]; simp; omega
  · exact Nat.le_refl _

theorem chunksOf_join {α : Type} (k : ℕ) (hk : 0 < k) (l : List α) :
    (chunksOf k l).flatten = l :=
  chunksGo_join k hk l.length l (Nat.le_refl _)

theorem chunksOf_mem {α : Type} (k : ℕ) (hk : 0 < k) (l : List α) :
    ∀ c ∈ chunksOf k l, c ≠ [] ∧ c.length ≤ k :=
  chunksGo_mem k hk l.length l (Nat.le_refl _)

theorem chunksOf_sizes_2500 {α : Type} (l : List α) (h : l.length = 2500) :
    (chunksOf 1000 l).map List.length = [1000, 1000, 500] := by
  have h1 : l ≠ [] := by intro e; rw [e] at h; simp at h
  rw [chunksOf_cons 1000 (by norm_num) l h1]
  have hd1 : (l.drop 1000).length = 1500 := by rw [List.length_drop, h]
  have h2 : l.drop 1000 ≠ [] := by
    intro e; rw [e] at hd1; simp at hd1
  rw [chunksOf_cons 1000 (by norm_num) _ h2]
  have hd2 : ((l.drop 1000).drop 1000).length = 500 := by
    rw [List.length_drop, hd1]
  have h3 : (l.drop 1000).drop 1000 ≠ [] := by
    intro e; rw [e] at hd2; simp at hd2
  rw [chunksOf_cons 1000 (by norm_num) _ h3]
  have hd3 : (((l.drop 1000).drop 1000).drop 1000) = [] := by
    apply List.eq_nil_of_length_eq_zero
    rw [List.length_drop, hd2]
  rw [hd3, chunksOf_nil]
  simp only [List.map_cons, List.map_nil, List.length_take, hd1, hd2, h]
  norm_num

theorem batchGo_none (f : ℕ → Option String) (hf : ∀ i, f i = none) :
    ∀ (cs : List (List Row)) (i : ℕ), batchGo f i cs =
      (cs.flatMap (fun c => [Event.insertBatch c, Event.commitEv]), cs.flatten, none) := by
  intro cs
  induction cs with
  | nil => intro i; rfl
  | cons c cs ih =>
    intro i
    show (match f i with
      | some e => ([Event.insertBatch c], [], some e)
      | none =>
        let r := batchGo f (i + 1) cs
        (Event.insertBatch c :: Event.commitEv :: r.1, c ++ r.2.1, r.2.2)) = _
    rw [hf i, ih (i + 1)]
    simp [List.flatMap_cons]

theorem batchGo_fail (f : ℕ → Option String) :
    ∀ (cs : List (List Row)) (i k : ℕ) (e : String),
      (∀ j, j < k → f (i + j) = none) → f (i + k) = some e → k < cs.length →
      batchGo f i cs =
        ((cs.take k).flatMap (fun c => [Event.insertBatch c, Event.commitEv])
            ++ [Event.insertBatch (cs.getD k [])],
          (cs.take k).flatten, some e) := by
  intro cs
  induction cs with
  | nil => intro i k e _ _ hk; simp at hk
  | cons c cs ih =>
    intro i k e hlt hk hklen
    cases k with
    | zero =>
      have h0 : f i = some e := by simpa using hk
      show (match f i with
        | some e => ([Event.insertBatch c], [], some e)
        | none =>
          let r := batchGo f (i + 1) cs
          (Event.insertBatch c :: Event.commitEv :: r.1, c ++ r.2.1, r.2.2)) = _
      rw [h0]
      simp
    | succ m =>
      have h0 : f i = none := by simpa using hlt 0 (Nat.succ_pos m)
      show (match f i with
        | some e => ([Event.insertBatch c], [], some e)
        | none =>
          let r := batchGo f (i + 1) cs
          (Event.insertBatch c :: Event.commitEv :: r.1, c ++ r.2.1, r.2.2)) = _
      rw [h0]
      have hrec := ih (i + 1) m e
        (fun j hj => by
          have := hlt (j + 1) (by omega)
          simpa [Nat.add_assoc, Nat.add_comm 1 j] using this)
        (by
          have : i + 1 + m = i + (m + 1) := by omega
          rw [this]; exact hk)
        (by simpa using Nat.lt_of_succ_lt_succ (by simpa using hklen))
      rw [hrec]
      simp [List.flatMap_cons]

theorem batchGo_events_dml (f : ℕ → Option String) :
    ∀ (cs : List (List Row)) (i : ℕ), ∀ ev ∈ (batchGo f i cs).1, isSchemaEvent ev = false := by
  intro cs
  induction cs with
  | nil => intro i ev hev; simp [batchGo] at hev
  | cons c cs ih =>
    intro i ev hev
    revert hev
    show ev ∈ (match f i with
      | some e => (([Event.insertBatch c], [], some e) : List Event × List Row × Option String)
      | none =>
        let r := batchGo f (i + 1) cs
        (Event.insertBatch c :: Event.commitEv :: r.1, c ++ r.2.1, r.2.2)).1 → _
    cases f i with
    | some e =>
      intro hev
      simp only [List.mem_singleton] at hev
      subst hev; rfl
    | none =>
      intro hev
      simp only [List.mem_cons] at hev
      rcases hev with rfl | rfl | hev
      · rfl
      · rfl
      · exact ih (i + 1) ev hev

theorem batchGo_err_some (f : ℕ → Option String) :
    ∀ (cs : List (List Row)) (i : ℕ) (e : String),
      (batchGo f i cs).2.2 = some e → ∃ j, f j = some e := by
  intro cs
  induction cs with
  | nil => intro i e h; simp [batchGo] at h
  | cons c cs ih =>
    intro i e h
    revert h
    show (match f i with
      | some e => (([Event.insertBatch c], [], some e) : List Event × List Row × Option String)
      | none =>
        let r := batchGo f (i + 1) cs
        (Event.insertBatch c :: Event.commitEv :: r.1, c ++ r.2.1, r.2.2)).2.2 = some e → _
    cases hfi : f i with
    | some e' =>
      intro h
      simp only at h
      exact ⟨i, by rw [hfi, h]⟩
    | none =>
      intro h
      simp only at h
      exact ih (i + 1) e h

theorem schemaPhase_existing (store : StoreBehavior) (df : List Column) (ex : List String)
    (he : store.existingTable = some ex) (hs : store.schemaFails = none) :
    schemaPhase store df = ((alterPlan df ex).map (fun p => Event.addColumn p.1 p.2), none) := by
  unfold schemaPhase
  rw [he]
  by_cases hp : (alterPlan df ex).isEmpty
  · have : alterPlan df ex = [] := by simpa [List.isEmpty_iff] using hp
    simp [hp, this]
  · simp [hp, hs]

theorem schemaPhase_snd_none (store : StoreBehavior) (df : List Column)
    (hs : store.schemaFails = none) :
    ∃ sevs, schemaPhase store df = (sevs, none) ∧ ∀ ev ∈ sevs, isSchemaEvent ev = true := by
  cases he : store.existingTable with
  | none =>
    refine ⟨[Event.createTable (df.map (fun c => (sanitize c.name, get_mysql_type c.dtype c.values)))], ?_, ?_⟩
    · unfold schemaPhase; rw [he, hs]
    · intro ev hev
      simp only [List.mem_singleton] at hev
      subst hev; rfl
  | some ex =>
    refine ⟨(alterPlan df ex).map (fun p => Event.addColumn p.1 p.2),
      schemaPhase_existing store df ex he hs, ?_⟩
    intro ev hev
    simp only [List.mem_map] at hev
    obtain ⟨p, _, rfl⟩ := hev
    rfl

theorem schemaPhase_err (store : StoreBehavior) (df : List Column) (e : String)
    (h : (schemaPhase store df).2 = some e) : store.schemaFails = some e := by
  unfold schemaPhase at h
  cases he : store.existingTable with
  | none =>
    rw [he] at h
    cases hs : store.schemaFails with
    | none => rw [hs] at h; simp at h
    | some e' => rw [hs] at h; simp only at h; exact h
  | some ex =>
    rw [he] at h
    by_cases hp : (alterPlan df ex).isEmpty
    · simp [hp] at h
    · cases hs : store.schemaFails with
      | none => rw [hs] at h; simp [hp] at h
      | some e' => rw [hs] at h; simp [hp] at h; exact congrArg some h

theorem alterPlan_mem (cols : List Column) (existing : List String) (n t : String) :
    (n, t) ∈ alterPlan cols existing ↔
      ∃ c ∈ cols, sanitize c.name = n ∧ existing.contains n = false ∧
        n ≠ "id" ∧ n ≠ "created_at" ∧ t = get_mysql_type c.dtype c.values := by
  unfold alterPlan
  rw [List.mem_filterMap]
  constructor
  · rintro ⟨c, hc, hf⟩
    dsimp only at hf
    split at hf
    case isTrue h1 =>
      rw [Option.some_inj, Prod.mk.injEq] at hf
      obtain ⟨rfl, rfl⟩ := hf
      simp only [Bool.and_eq_true, Bool.not_eq_true', bne_iff_ne] at h1
      exact ⟨c, hc, rfl, h1.1.1, h1.1.2, h1.2, rfl⟩
    case isFalse => exact absurd hf (by simp)
  · rintro ⟨c, hc, rfl, hcon, hid, hca, rfl⟩
    refine ⟨c, hc, ?_⟩
    dsimp only
    rw [if_pos]
    simp only [Bool.and_eq_true, Bool.not_eq_true', bne_iff_ne]
    exact ⟨⟨hcon, hid⟩, hca⟩

theorem filterMap_if_map_sublist {α β γ : Type} (cond : α → Bool) (g : α → β) (t : α → γ) :
    ∀ l : List α,
      List.Sublist
        ((l.filterMap (fun c => if cond c then some (g c, t c) else none)).map Prod.fst)
        (l.map g) := by
  intro l
  induction l with
  | nil => simp
  | cons a l ih =>
    rw [List.filterMap_cons]
    by_cases h : cond a = true
    · simp only [h, if_true, List.map_cons]
      exact List.Sublist.cons₂ _ ih
    · simp only [h, if_false, Bool.false_eq_true, List.map_cons]
      exact List.Sublist.cons _ ih

theorem alterPlan_names_sublist (cols : List Column) (existing : List String) :
    List.Sublist ((alterPlan cols existing).map Prod.fst)
      (cols.map (fun c => sanitize c.name)) := by
  unfold alterPlan
  exact filterMap_if_map_sublist _ _ _ cols

theorem foldl_max_le (b : ℕ) :
    ∀ (l : List ℕ) (acc : ℕ), acc ≤ b → (∀ x ∈ l, x ≤ b) → l.foldl max acc ≤ b := by
  intro l
  induction l with
  | nil => intro acc h _; simpa using h
  | cons x xs ih =>
    intro acc hacc hall
    simp only [List.foldl_cons]
    exact ih (max acc x) (max_le hacc (hall x (List.mem_cons_self x xs)))
      (fun y hy => hall y (List.mem_cons_of_mem _ hy))

theorem toInt64Val_null_iff (v : Value) : toInt64Val v = Value.vNull ↔ v = Value.vNull := by
  cases v <;> simp [toInt64Val]

theorem intWidthName_iffs (m : ℤ) :
    (intWidthName m = "TINYINT" ↔ m ≤ 127)
    ∧ (intWidthName m = "SMALLINT" ↔ 127 < m ∧ m ≤ 32767)
    ∧ (intWidthName m = "MEDIUMINT" ↔ 32767 < m ∧ m ≤ 8388607)
    ∧ (intWidthName m = "INT" ↔ 8388607 < m ∧ m ≤ 2147483647)
    ∧ (intWidthName m = "BIGINT" ↔ 2147483647 < m) := by
  unfold intWidthName
  split_ifs with h1 h2 h3 h4 <;>
    refine ⟨⟨fun hh => ?_, fun hh => ?_⟩, ⟨fun hh => ?_, fun hh => ?_⟩,
      ⟨fun hh => ?_, fun hh => ?_⟩, ⟨fun hh => ?_, fun hh => ?_⟩,
      ⟨fun hh => ?_, fun hh => ?_⟩⟩ <;>
    first
      | rfl
      | omega
      | exact absurd hh (by decide)

theorem intWidthName_mem (m : ℤ) :
    intWidthName m ∈ (["TINYINT", "SMALLINT", "MEDIUMINT", "INT", "BIGINT"] : List String) := by
  unfold intWidthName
  split_ifs <;> simp

theorem intWidthName_ne_double (m : ℤ) : intWidthName m ≠ "DOUBLE" := by
  unfold intWidthName
  split_ifs <;> decide

theorem intWidthName_rank_mono (m m' : ℤ) (h : m ≤ m') :
    widthRank (intWidthName m) ≤ widthRank (intWidthName m') := by
  unfold intWidthName
  split_ifs <;> first | decide | (exfalso; omega)

theorem get_int64_eq (vs : List Value) (h : vs ≠ []) :
    get_mysql_type Dtype.int64 vs = intWidthName (seriesMaxInt vs) := by
  have he : vs.isEmpty = false := by
    cases vs with
    | nil => exact absurd rfl h
    | cons a t => rfl
  show intWidthName (if vs.isEmpty then 0 else seriesMaxInt vs) = _
  rw [he]
  simp

theorem insertedChunks_append (a b : List Event) :
    insertedChunks (a ++ b) = insertedChunks a ++ insertedChunks b :=
  List.filterMap_append a b _

theorem insertedChunks_flatMap (cs : List (List Row)) :
    insertedChunks (cs.flatMap (fun c => [Event.insertBatch c, Event.commitEv])) = cs := by
  induction cs with
  | nil => rfl
  | cons c cs ih =>
    rw [List.flatMap_cons, insertedChunks_append, ih]
    rfl

theorem insertedChunks_of_schema (sevs : List Event)
    (h : ∀ ev ∈ sevs, isSchemaEvent ev = true) : insertedChunks sevs = [] := by
  induction sevs with
  | nil => rfl
  | cons ev evs ih =>
    have hev := h ev (List.mem_cons_self ev evs)
    have hrest := ih (fun e he => h e (List.mem_cons_of_mem _ he))
    cases ev with
    | createTable l => simpa [insertedChunks, List.filterMap_cons] using hrest
    | addColumn n t => simpa [insertedChunks, List.filterMap_cons] using hrest
    | insertBatch r => simp [isSchemaEvent] at hev
    | commitEv => simpa [insertedChunks, List.filterMap_cons] using hrest

theorem run_connect_false (table : String) (cols : List Column) (store : StoreBehavior)
    (hc : store.connectOk = false) :
    insert_database_run table cols store =
      ⟨.failure "Failed to connect to MySQL database", [], false, false, []⟩ := by
  simp [insert_database_run, hc]

theorem run_schema_err (table : String) (cols : List Column) (store : StoreBehavior)
    (sevs : List Event) (e : String) (hc : store.connectOk = true)
    (hsp : schemaPhase store (processedCols cols) = (sevs, some e)) :
    insert_database_run table cols store = ⟨.failure e, sevs, true, false, []⟩ := by
  simp only [insert_database_run, hc, if_true, hsp]

theorem run_batch_err (table : String) (cols : List Column) (store : StoreBehavior)
    (sevs : List Event) (e : String) (hc : store.connectOk = true)
    (hsp : schemaPhase store (processedCols cols) = (sevs, none))
    (hb : (batchGo store.batchFails 0 (chunksOf 1000 (dfRows (processedCols cols)))).2.2 = some e) :
    insert_database_run table cols store =
      ⟨.failure e,
        sevs ++ (batchGo store.batchFails 0 (chunksOf 1000 (dfRows (processedCols cols)))).1,
        true, false,
        (batchGo store.batchFails 0 (chunksOf 1000 (dfRows (processedCols cols)))).2.1⟩ := by
  simp only [insert_database_run, hc, if_true, hsp, hb]

theorem run_batch_ok (table : String) (cols : List Column) (store : StoreBehavior)
    (sevs : List Event) (hc : store.connectOk = true)
    (hsp : schemaPhase store (processedCols cols) = (sevs, none))
    (hb : (batchGo store.batchFails 0 (chunksOf 1000 (dfRows (processedCols cols)))).2.2 = none) :
    insert_database_run table cols store =
      ⟨.success ("✓ Successfully inserted " ++ toString (numRows (processedCols cols))
          ++ " rows into table '" ++ table ++ "'"),
        sevs ++ (batchGo store.batchFails 0 (chunksOf 1000 (dfRows (processedCols cols)))).1,
        true, true,
        (batchGo store.batchFails 0 (chunksOf 1000 (dfRows (processedCols cols)))).2.1⟩ := by
  simp only [insert_database_run, hc, if_true, hsp, hb]

theorem contains_of_mem {x : String} {l : List String} (h : x ∈ l) : l.contains x = true := by
  induction l with
  | nil => simp at h
  | cons a t ih =>
    rw [List.mem_cons] at h
    rcases h with rfl | h
    · simp [List.contains, List.elem_cons]
    · simp only [List.contains, List.elem_cons]
      split
      · rfl
      · exact ih h

theorem safe_convert_uf_name (c : Column) : (safe_convert_col_uf c).name = c.name := by
  obtain ⟨n, dt, vs⟩ := c
  cases dt <;>
    simp only [safe_convert_col_uf] <;>
    split <;>
    first | rfl | (split <;> rfl)

theorem processed_names (cols : List Column) :
    (processedCols cols).map (fun c => sanitize c.name) =
      (dropUnnamed cols).map (fun c => sanitize c.name) := by
  unfold processedCols
  rw [List.map_map]
  apply List.map_congr_left
  intro c _
  show sanitize (safe_convert_col_uf c).name = sanitize c.name
  rw [safe_convert_uf_name]

theorem dropUnnamed_names_sublist (cols : List Column) :
    List.Sublist ((dropUnnamed cols).map (fun c => sanitize c.name))
      (cols.map (fun c => sanitize c.name)) :=
  (List.filter_sublist _).map _

theorem rep2500_present :
    presentVals (List.replicate 2500 (Value.vInt 1)) = List.replicate 2500 (Value.vInt 1) := by
  rw [presentVals, List.filter_replicate]; rfl

theorem rep2500_nonempty : (List.replicate 2500 (Value.vInt 1)).isEmpty = false := by
  show (List.replicate (2499 + 1) (Value.vInt 1)).isEmpty = false
  rw [List.replicate_succ]
  rfl

theorem rep2500_convert :
    safe_convert_col_uf ⟨"a", Dtype.int64, List.replicate 2500 (Value.vInt 1)⟩ =
      ⟨"a", Dtype.int64, List.replicate 2500 (Value.vInt 1)⟩ := by
  unfold safe_convert_col_uf
  rw [rep2500_present, rep2500_nonempty]
  rfl

theorem rep2500_processed :
    processedCols [⟨"a", Dtype.int64, List.replicate 2500 (Value.vInt 1)⟩] =
      [⟨"a", Dtype.int64, List.replicate 2500 (Value.vInt 1)⟩] := by
  unfold processedCols dropUnnamed
  rw [List.filter_cons]
  have hcu : containsUnnamed "a" = false := rfl
  rw [hcu]
  show List.map safe_convert_col_uf [⟨"a", Dtype.int64, List.replicate 2500 (Value.vInt 1)⟩] = _
  rw [List.map_cons, List.map_nil, rep2500_convert]

theorem rep2500_rows_len :
    (dfRows (processedCols [⟨"a", Dtype.int64, List.replicate 2500 (Value.vInt 1)⟩])).length
      = 2500 := by
  rw [rep2500_processed]
  have h1 : (dfRows [⟨"a", Dtype.int64, List.replicate 2500 (Value.vInt 1)⟩]).length
      = numRows [⟨"a", Dtype.int64, List.replicate 2500 (Value.vInt 1)⟩] := by
    rw [dfRows, List.length_map, List.length_range]
  rw [h1]
  have h2 : numRows [⟨"a", Dtype.int64, List.replicate 2500 (Value.vInt 1)⟩]
      = (List.replicate 2500 (Value.vInt 1)).length := rfl
  rw [h2, List.length_replicate]

theorem strBegins_append_left (s t : String) (h : strBegins s "✓" = true) :
    strBegins (s ++ t) "✓" = true := by
  unfold strBegins at h ⊢
  rw [String.data_append, List.take_append_eq_append_take]
  cases hs : s.data with
  | nil => rw [hs] at h; exact absurd h (by decide)
  | cons a l =>
    rw [hs] at h
    have h0 : "✓".data.length - (a :: l).length = 0 := by
      have h1 : "✓".data.length = 1 := rfl
      rw [h1, List.length_cons]
      omega
    rw [h0, List.take_zero, List.append_nil]
    exact h

/-! ### Claims -/

/-- Claim C10: `main.py` imports the names `upload_dataframe` and
`delete_data_by_date` from the `upload_functions` module, but that module
defines no such names, so every invocation of the menu program fails
at import time (at the first missing name, `upload_dataframe`), before any
menu is displayed or any input is read. -/
theorem C10_main_import_error :
    main_py_start = MainStart.importError "upload_dataframe"
    ∧ uploadFunctionsDefinedNames.contains "upload_dataframe" = false
    ∧ uploadFunctionsDefinedNames.contains "delete_data_by_date" = false
    ∧ main_py_start ≠ MainStart.menuShown := by decide

/-- Claim C2, counterexample: the claim chooses the width by the maximum
observed *magnitude*; the code compares `column_values.max()` — the signed
maximum — against the thresholds.  For the column `[-200]` the magnitude is
200, in the SMALLINT band (127 < 200 ≤ 32767), yet `get_mysql_type`
returns TINYINT. -/
theorem C2_magnitude_counterexample :
    get_mysql_type Dtype.int64 [Value.vInt (-200)] = "TINYINT"
    ∧ get_mysql_type Dtype.int64 [Value.vInt (-200)] ≠ "SMALLINT"
    ∧ (127 : ℤ) < |(-200 : ℤ)| ∧ |(-200 : ℤ)| ≤ 32767 := by decide

/-- Claim C2, amended: for an integer-categorized column the width is
chosen by the maximum observed *signed value* (`column_values.max()`, which
skips missing entries), crossing exactly at the thresholds 127, 32767,
8388607 and 2147483647; a column with no values at all yields TINYINT; the
choice is monotone in that maximum. -/
theorem C2_int_width_by_signed_max :
    (∀ vs : List Value, vs ≠ [] → presentInts vs ≠ [] →
      ((get_mysql_type Dtype.int64 vs = "TINYINT" ↔ seriesMaxInt vs ≤ 127)
        ∧ (get_mysql_type Dtype.int64 vs = "SMALLINT" ↔
            127 < seriesMaxInt vs ∧ seriesMaxInt vs ≤ 32767)
        ∧ (get_mysql_type Dtype.int64 vs = "MEDIUMINT" ↔
            32767 < seriesMaxInt vs ∧ seriesMaxInt vs ≤ 8388607)
        ∧ (get_mysql_type Dtype.int64 vs = "INT" ↔
            8388607 < seriesMaxInt vs ∧ seriesMaxInt vs ≤ 2147483647)
        ∧ (get_mysql_type Dtype.int64 vs = "BIGINT" ↔ 2147483647 < seriesMaxInt vs)))
    ∧ get_mysql_type Dtype.int64 [] = "TINYINT"
    ∧ (∀ vs vs' : List Value, vs ≠ [] → vs' ≠ [] →
        seriesMaxInt vs ≤ seriesMaxInt vs' →
        widthRank (get_mysql_type Dtype.int64 vs) ≤
          widthRank (get_mysql_type Dtype.int64 vs')) := by
  refine ⟨?_, rfl, ?_⟩
  · intro vs hne _
    rw [get_int64_eq vs hne]
    exact intWidthName_iffs (seriesMaxInt vs)
  · intro vs vs' h h' hle
    rw [get_int64_eq vs h, get_int64_eq vs' h']
    exact intWidthName_rank_mono _ _ hle

/-- Claim C2, witness: the amended theorem applied to the column `[200]`,
whose signed maximum 200 lies in the SMALLINT band. -/
theorem C2_int_width_by_signed_max_witness :
    get_mysql_type Dtype.int64 [Value.vInt 200] = "SMALLINT" :=
  (C2_int_width_by_signed_max.1 [Value.vInt 200] (by decide) (by decide)).2.1.mpr (by decide)

/-- Claim C6, counterexample: for the all-missing column
`[None, None, None]` the coercion step runs `astype(str)`, which turns
every `None` into the four-character string "None"; `get_mysql_type` then
sees three non-missing strings and returns TEXT, not the claimed
VARCHAR(255). -/
theorem C6_varchar_counterexample :
    get_mysql_type
        (safe_convert_col_uf ⟨"c", Dtype.object, [Value.vNull, Value.vNull, Value.vNull]⟩).dtype
        (safe_convert_col_uf ⟨"c", Dtype.object, [Value.vNull, Value.vNull, Value.vNull]⟩).values
      = "TEXT"
    ∧ get_mysql_type
        (safe_convert_col_uf ⟨"c", Dtype.object, [Value.vNull, Value.vNull, Value.vNull]⟩).dtype
        (safe_convert_col_uf ⟨"c", Dtype.object, [Value.vNull, Value.vNull, Value.vNull]⟩).values
      ≠ "VARCHAR(255)" := by decide

/-- Claim C6, amended: a non-empty column whose every entry is missing
passes through `safe_convert_for_mysql` followed by `get_mysql_type`
without raising (the pipeline is total) and maps to TEXT: the coercion
stringifies the missing entries, so the VARCHAR(255) default for columns
with no non-missing values is not reached. This holds whatever the
column's dtype, since the all-missing branch runs before the dtype
dispatch. -/
theorem C6_all_missing_maps_to_text (name : String) (dt : Dtype) (vs : List Value)
    (hne : vs ≠ []) (hnull : ∀ v ∈ vs, v = Value.vNull) :
    get_mysql_type (safe_convert_col_uf ⟨name, dt, vs⟩).dtype
      (safe_convert_col_uf ⟨name, dt, vs⟩).values = "TEXT" := by
  have hp : presentVals vs = [] := by
    rw [presentVals, List.filter_eq_nil]
    intro v hv
    rw [hnull v hv]
    decide
  have hcv : safe_convert_col_uf ⟨name, dt, vs⟩ = astypeStrCol ⟨name, dt, vs⟩ := by
    unfold safe_convert_col_uf
    rw [hp]
    rfl
  rw [hcv]
  show get_mysql_type Dtype.object (vs.map (fun v => Value.vStr (pyStr v))) = "TEXT"
  have hmap : vs.map (fun v => Value.vStr (pyStr v)) = vs.map (fun _ => Value.vStr "None") :=
    List.map_congr_left (fun v hv => by rw [hnull v hv]; rfl)
  rw [hmap]
  have hnn : presentVals (vs.map fun _ => Value.vStr "None") = vs.map fun _ => Value.vStr "None" := by
    rw [presentVals, List.filter_eq_self]
    intro v hv
    simp only [List.mem_map] at hv
    obtain ⟨w, _, rfl⟩ := hv
    decide
  have hlen : 0 < (presentVals (vs.map fun _ => Value.vStr "None")).length := by
    rw [hnn, List.length_map]
    cases vs with
    | nil => exact absurd rfl hne
    | cons a t => simp
  have hmaxle :
      ((presentVals (vs.map fun _ => Value.vStr "None")).map
        (fun v => (pyStr v).length)).foldl max 0 ≤ 65535 := by
    apply foldl_max_le
    · omega
    · intro x hx
      rw [hnn] at hx
      simp only [List.map_map, List.mem_map, Function.comp] at hx
      obtain ⟨w, _, rfl⟩ := hx
      decide
  show (let nn := presentVals (vs.map fun _ => Value.vStr "None")
        if 0 < nn.length then
          let maxLen := (nn.map (fun v => (pyStr v).length)).foldl max 0
          if maxLen ≤ 65535 then "TEXT"
          else if maxLen ≤ 16777215 then "MEDIUMTEXT"
          else "LONGTEXT"
        else "VARCHAR(255)") = "TEXT"
  rw [if_pos hlen, if_pos hmaxle]

/-- Claim C6, witness: the amended theorem evaluated at `[None, None, None]`. -/
theorem C6_all_missing_maps_to_text_witness :
    get_mysql_type
        (safe_convert_col_uf ⟨"c", Dtype.object, [Value.vNull, Value.vNull, Value.vNull]⟩).dtype
        (safe_convert_col_uf ⟨"c", Dtype.object, [Value.vNull, Value.vNull, Value.vNull]⟩).values
      = "TEXT" :=
  C6_all_missing_maps_to_text "c" Dtype.object [Value.vNull, Value.vNull, Value.vNull]
    (by decide) (by decide)

/-- Claim C9, counterexample: the two copies of `safe_convert_for_mysql`
are not behaviorally identical.  On a column whose dtype matches none of
the dispatch predicates (e.g. `complex128`), the `excel_to_db_example.py`
copy stringifies every value through its final `else` branch (step 11 of
the coercion algorithm), while the `upload_functions.py` copy — which has
no such branch — leaves the column unchanged. -/
theorem C9_fallback_counterexample :
    safe_convert_col_uf ⟨"c", Dtype.other, [Value.vComposite "(1+2j)"]⟩ ≠
      safe_convert_col_ex ⟨"c", Dtype.other, [Value.vComposite "(1+2j)"]⟩ := by decide

/-- Claim C9, amended: the two copies agree on every column whose dtype is
float, categorical, object, datetime64, timedelta64, bool or integer (and
on every all-missing column); on a column of any other dtype with at least
one present value, `upload_functions.py` leaves the column unchanged while
`excel_to_db_example.py` stringifies it — only the latter realizes step 11
of the coercion algorithm. -/
theorem C9_equivalence_modulo_fallback (c : Column) :
    (c.dtype ≠ Dtype.other → safe_convert_col_uf c = safe_convert_col_ex c)
    ∧ (c.dtype = Dtype.other → presentVals c.values ≠ [] →
        safe_convert_col_uf c = c ∧ safe_convert_col_ex c = astypeStrCol c) := by
  obtain ⟨name, dt, vs⟩ := c
  cases dt with
  | other =>
    refine ⟨fun h => absurd rfl h, fun _ hp => ?_⟩
    have hie : (presentVals vs).isEmpty = false := by
      cases hpv : presentVals vs with
      | nil => exact absurd hpv hp
      | cons a t => rfl
    constructor
    · show safe_convert_col_uf ⟨name, Dtype.other, vs⟩ = _
      unfold safe_convert_col_uf
      rw [hie]
      rfl
    · show safe_convert_col_ex ⟨name, Dtype.other, vs⟩ = _
      unfold safe_convert_col_ex
      rw [hie]
      rfl
  | float => exact ⟨fun _ => rfl, fun h => nomatch h⟩
  | categorical => exact ⟨fun _ => rfl, fun h => nomatch h⟩
  | object => exact ⟨fun _ => rfl, fun h => nomatch h⟩
  | datetime64 => exact ⟨fun _ => rfl, fun h => nomatch h⟩
  | timedelta64 => exact ⟨fun _ => rfl, fun h => nomatch h⟩
  | bool => exact ⟨fun _ => rfl, fun h => nomatch h⟩
  | int64 => exact ⟨fun _ => rfl, fun h => nomatch h⟩

/-- Claim C9, witness: the amended theorem applied to a boolean column,
where the two copies agree. -/
theorem C9_equivalence_modulo_fallback_witness :
    safe_convert_col_uf ⟨"flag", Dtype.bool, [Value.vBool true, Value.vNull]⟩ =
      safe_convert_col_ex ⟨"flag", Dtype.bool, [Value.vBool true, Value.vNull]⟩ :=
  (C9_equivalence_modulo_fallback ⟨"flag", Dtype.bool, [Value.vBool true, Value.vNull]⟩).1
    (by decide)

/-- Claim C5: a float-dtype column with at least one present value, all of
whose present values are integral, is recategorized by the coercion step
as nullable integer (`Int64`): the dtype becomes integer, each float
becomes its integer value, missing entries stay missing position by
position, and the storage type subsequently inferred for the column is one
of the five integer widths — never DOUBLE. -/
theorem C5_integral_float_column (name : String) (vs : List Value)
    (hall : ∀ v ∈ vs, v = Value.vNull ∨ ∃ q : ℚ, v = Value.vFloat q ∧ q.den = 1)
    (hpres : ∃ v ∈ vs, v ≠ Value.vNull) :
    (safe_convert_col_uf ⟨name, Dtype.float, vs⟩).dtype = Dtype.int64
    ∧ (safe_convert_col_uf ⟨name, Dtype.float, vs⟩).values = vs.map toInt64Val
    ∧ (∀ i, i < vs.length →
        (vs.getD i Value.vNull = Value.vNull ↔
          (safe_convert_col_uf ⟨name, Dtype.float, vs⟩).values.getD i Value.vNull
            = Value.vNull))
    ∧ get_mysql_type (safe_convert_col_uf ⟨name, Dtype.float, vs⟩).dtype
        (safe_convert_col_uf ⟨name, Dtype.float, vs⟩).values
        ∈ (["TINYINT", "SMALLINT", "MEDIUMINT", "INT", "BIGINT"] : List String)
    ∧ get_mysql_type (safe_convert_col_uf ⟨name, Dtype.float, vs⟩).dtype
        (safe_convert_col_uf ⟨name, Dtype.float, vs⟩).values ≠ "DOUBLE" := by
  obtain ⟨v0, hv0m, hv0⟩ := hpres
  have hmemf : v0 ∈ presentVals vs := by
    rw [presentVals, List.mem_filter]
    exact ⟨hv0m, by simpa using hv0⟩
  have hie : (presentVals vs).isEmpty = false := by
    cases hpv : presentVals vs with
    | nil => rw [hpv] at hmemf; exact absurd hmemf (by simp)
    | cons a t => rfl
  have hint : (presentVals vs).all valIsInteger = true := by
    rw [List.all_eq_true]
    intro v hv
    rw [presentVals, List.mem_filter] at hv
    have hvn : v ≠ Value.vNull := by simpa using hv.2
    rcases hall v hv.1 with rfl | ⟨q, rfl, hq⟩
    · exact absurd rfl hvn
    · simpa [valIsInteger] using hq
  have hconv : safe_convert_col_uf ⟨name, Dtype.float, vs⟩ =
      ⟨name, Dtype.int64, vs.map toInt64Val⟩ := by
    unfold safe_convert_col_uf
    rw [hie]
    show (if (presentVals vs).all valIsInteger = true then
        (⟨name, Dtype.int64, vs.map toInt64Val⟩ : Column)
      else ⟨name, Dtype.float, vs⟩) = _
    rw [if_pos hint]
  have hne2 : vs.map toInt64Val ≠ [] := by
    cases vs with
    | nil => exact absurd hv0m (by simp)
    | cons a t => simp
  rw [hconv]
  refine ⟨rfl, rfl, ?_, ?_, ?_⟩
  · intro i hi
    show vs.getD i Value.vNull = Value.vNull ↔
      (vs.map toInt64Val).getD i Value.vNull = Value.vNull
    rw [List.getD_eq_getElem?_getD, List.getD_eq_getElem?_getD, List.getElem?_map]
    cases h : vs[i]? with
    | none =>
      rw [List.getElem?_eq_none_iff] at h
      omega
    | some v => simp [toInt64Val_null_iff]
  · show get_mysql_type Dtype.int64 (vs.map toInt64Val) ∈ _
    rw [get_int64_eq _ hne2]
    exact intWidthName_mem _
  · show get_mysql_type Dtype.int64 (vs.map toInt64Val) ≠ "DOUBLE"
    rw [get_int64_eq _ hne2]
    exact intWidthName_ne_double _

/-- Claim C5, witness: the column `[2.0, NaN, 5.0]`. -/
theorem C5_integral_float_column_witness :
    (safe_convert_col_uf ⟨"Salary", Dtype.float, [Value.vFloat 2, Value.vNull, Value.vFloat 5]⟩).dtype
      = Dtype.int64
    ∧ get_mysql_type
        (safe_convert_col_uf ⟨"Salary", Dtype.float, [Value.vFloat 2, Value.vNull, Value.vFloat 5]⟩).dtype
        (safe_convert_col_uf ⟨"Salary", Dtype.float, [Value.vFloat 2, Value.vNull, Value.vFloat 5]⟩).values
      ≠ "DOUBLE" := by
  have h := C5_integral_float_column "Salary" [Value.vFloat 2, Value.vNull, Value.vFloat 5]
    (by
      intro v hv
      simp only [List.mem_cons, List.not_mem_nil, or_false] at hv
      rcases hv with rfl | rfl | rfl
      · exact Or.inr ⟨2, rfl, by decide⟩
      · exact Or.inl rfl
      · exact Or.inr ⟨5, rfl, by decide⟩)
    ⟨Value.vFloat 2, by simp, by decide⟩
  exact ⟨h.1, h.2.2.2.2⟩

/-- Claim C1: against an existing table, exactly the processed dataframe
columns whose sanitized name is absent from the live column identifiers
(and is neither `id` nor `created_at`) are appended — membership in the
alter plan is characterized exactly, the appended names appear in dataset
order (a sublist of the incoming columns' sanitized names), every emitted
schema statement is an ADD COLUMN from that plan (so no column is ever
dropped or retyped and no existing column is touched), and every plan
entry carries its mapped storage type. -/
theorem C1_schema_evolution_append_only
    (table : String) (cols : List Column) (store : StoreBehavior) (existing : List String)
    (hc : store.connectOk = true) (he : store.existingTable = some existing)
    (hs : store.schemaFails = none) :
    (∀ n t, (n, t) ∈ alterPlan (processedCols cols) existing ↔
      ∃ c ∈ processedCols cols, sanitize c.name = n ∧ existing.contains n = false ∧
        n ≠ "id" ∧ n ≠ "created_at" ∧ t = get_mysql_type c.dtype c.values)
    ∧ List.Sublist ((alterPlan (processedCols cols) existing).map Prod.fst)
        (cols.map (fun c => sanitize c.name))
    ∧ (∃ bevs, (insert_database_run table cols store).events =
        (alterPlan (processedCols cols) existing).map (fun p => Event.addColumn p.1 p.2) ++ bevs
        ∧ ∀ ev ∈ bevs, isSchemaEvent ev = false)
    ∧ (∀ n t, Event.addColumn n t ∈ (insert_database_run table cols store).events →
        (n, t) ∈ alterPlan (processedCols cols) existing)
    ∧ (∀ x ∈ existing, ∀ t,
        Event.addColumn x t ∉ (insert_database_run table cols store).events) := by
  have hsp := schemaPhase_existing store (processedCols cols) existing he hs
  obtain ⟨bevs, hevents, hbdml⟩ :
      ∃ bevs, (insert_database_run table cols store).events =
        (alterPlan (processedCols cols) existing).map (fun p => Event.addColumn p.1 p.2) ++ bevs
        ∧ ∀ ev ∈ bevs, isSchemaEvent ev = false := by
    cases hb : (batchGo store.batchFails 0 (chunksOf 1000 (dfRows (processedCols cols)))).2.2 with
    | some e =>
      refine ⟨(batchGo store.batchFails 0 (chunksOf 1000 (dfRows (processedCols cols)))).1,
        ?_, batchGo_events_dml _ _ _⟩
      rw [run_batch_err table cols store _ e hc hsp hb]
    | none =>
      refine ⟨(batchGo store.batchFails 0 (chunksOf 1000 (dfRows (processedCols cols)))).1,
        ?_, batchGo_events_dml _ _ _⟩
      rw [run_batch_ok table cols store _ hc hsp hb]
  have h4 : ∀ n t, Event.addColumn n t ∈ (insert_database_run table cols store).events →
      (n, t) ∈ alterPlan (processedCols cols) existing := by
    intro n t hmem
    rw [hevents, List.mem_append] at hmem
    rcases hmem with hmem | hmem
    · rw [List.mem_map] at hmem
      obtain ⟨p, hp, heq⟩ := hmem
      obtain ⟨p1, p2⟩ := p
      rw [Event.addColumn.injEq] at heq
      obtain ⟨rfl, rfl⟩ := heq
      exact hp
    · have := hbdml _ hmem
      simp [isSchemaEvent] at this
  refine ⟨alterPlan_mem _ _, ?_, ⟨bevs, hevents, hbdml⟩, h4, ?_⟩
  · exact ((alterPlan_names_sublist _ _).trans
      (by rw [processed_names])).trans (dropUnnamed_names_sublist cols)
  · intro x hx t hev
    obtain ⟨c, _, _, hcon, _⟩ := (alterPlan_mem _ _ x t).mp (h4 x t hev)
    rw [contains_of_mem hx] at hcon
    exact absurd hcon (by decide)

/-- Claim C1, witness: re-running against a table holding `id`,
`created_at` and `a`, with dataset columns `a` and `New Col`, appends
exactly `New_Col` and never touches `a`. -/
theorem C1_schema_evolution_append_only_witness :
    Event.addColumn "a" "TINYINT" ∉
      (insert_database_run "t"
        [⟨"a", Dtype.int64, [Value.vInt 1]⟩, ⟨"New Col", Dtype.int64, [Value.vInt 1]⟩]
        ⟨true, some ["id", "created_at", "a"], none, fun _ => none⟩).events :=
  (C1_schema_evolution_append_only "t"
      [⟨"a", Dtype.int64, [Value.vInt 1]⟩, ⟨"New Col", Dtype.int64, [Value.vInt 1]⟩]
      ⟨true, some ["id", "created_at", "a"], none, fun _ => none⟩
      ["id", "created_at", "a"] rfl rfl rfl).2.2.2.2 "a" (by decide) "TINYINT"

/-- Claim C3: with batch size 1000 the rows are partitioned into
consecutive non-empty chunks of at most 1000 rows whose concatenation is
the original row list (every row in exactly one chunk, original order); a
2500-row dataset gives exactly the chunk sizes 1000, 1000, 500; and on a
run where no batch fails, the trace after the schema phase is exactly
insert-then-commit for each chunk in order, ending in the success
outcome — each chunk is committed before the next is attempted. -/
theorem C3_batch_partition
    (table : String) (cols : List Column) (store : StoreBehavior)
    (hc : store.connectOk = true) (hs : store.schemaFails = none)
    (hb : ∀ i, store.batchFails i = none) :
    (chunksOf 1000 (dfRows (processedCols cols))).flatten = dfRows (processedCols cols)
    ∧ (∀ c ∈ chunksOf 1000 (dfRows (processedCols cols)), c ≠ [] ∧ c.length ≤ 1000)
    ∧ ((dfRows (processedCols cols)).length = 2500 →
        (chunksOf 1000 (dfRows (processedCols cols))).map List.length = [1000, 1000, 500])
    ∧ (∃ sevs, (∀ ev ∈ sevs, isSchemaEvent ev = true)
        ∧ (insert_database_run table cols store).events =
            sevs ++ (chunksOf 1000 (dfRows (processedCols cols))).flatMap
              (fun c => [Event.insertBatch c, Event.commitEv]))
    ∧ (∃ m, (insert_database_run table cols store).outcome = Outcome.success m) := by
  obtain ⟨sevs, hsp, hschema⟩ := schemaPhase_snd_none store (processedCols cols) hs
  have hbg := batchGo_none store.batchFails hb (chunksOf 1000 (dfRows (processedCols cols))) 0
  have hbnone :
      (batchGo store.batchFails 0 (chunksOf 1000 (dfRows (processedCols cols)))).2.2 = none := by
    rw [hbg]
  have hrun := run_batch_ok table cols store sevs hc hsp hbnone
  refine ⟨chunksOf_join 1000 (by norm_num) _,
    chunksOf_mem 1000 (by norm_num) _,
    fun h => chunksOf_sizes_2500 _ h,
    ⟨sevs, hschema, ?_⟩, ?_⟩
  · rw [hrun]
    show sevs ++ (batchGo store.batchFails 0 (chunksOf 1000 (dfRows (processedCols cols)))).1 = _
    rw [hbg]
  · exact ⟨_, by rw [hrun]⟩

/-- Claim C3, witness: the partition facts instantiated on a 2500-row
single-column dataset — exactly three chunks of sizes 1000, 1000, 500. -/
theorem C3_batch_partition_witness :
    (chunksOf 1000 (dfRows (processedCols
        [⟨"a", Dtype.int64, List.replicate 2500 (Value.vInt 1)⟩]))).map List.length
      = [1000, 1000, 500] :=
  (C3_batch_partition "t" [⟨"a", Dtype.int64, List.replicate 2500 (Value.vInt 1)⟩]
      ⟨true, some ["id", "created_at", "a"], none, fun _ => none⟩
      rfl rfl (fun _ => rfl)).2.2.1 rep2500_rows_len

/-- Claim C4: when the write of chunk `k` (0-based) fails after chunks
`0..k-1` were committed, the rows of those earlier chunks remain persisted
(there is no rollback operation), the attempted inserts are exactly chunks
`0..k` — no chunk after `k` is attempted — and the run's outcome is the
failure carrying the store's exception text. -/
theorem C4_chunk_failure_keeps_committed
    (table : String) (cols : List Column) (store : StoreBehavior) (k : ℕ) (e : String)
    (hc : store.connectOk = true) (hs : store.schemaFails = none)
    (hlt : ∀ i, i < k → store.batchFails i = none) (hk : store.batchFails k = some e)
    (hklen : k < (chunksOf 1000 (dfRows (processedCols cols))).length) :
    (insert_database_run table cols store).persisted =
      ((chunksOf 1000 (dfRows (processedCols cols))).take k).flatten
    ∧ insertedChunks (insert_database_run table cols store).events =
        (chunksOf 1000 (dfRows (processedCols cols))).take (k + 1)
    ∧ (insert_database_run table cols store).outcome = Outcome.failure e := by
  obtain ⟨sevs, hsp, hschema⟩ := schemaPhase_snd_none store (processedCols cols) hs
  have hbg := batchGo_fail store.batchFails (chunksOf 1000 (dfRows (processedCols cols))) 0 k e
    (fun j hj => by simpa using hlt j hj) (by simpa using hk) hklen
  have hberr :
      (batchGo store.batchFails 0 (chunksOf 1000 (dfRows (processedCols cols)))).2.2 = some e := by
    rw [hbg]
  have hrun := run_batch_err table cols store sevs e hc hsp hberr
  rw [hrun]
  refine ⟨?_, ?_, rfl⟩
  · show (batchGo store.batchFails 0 (chunksOf 1000 (dfRows (processedCols cols)))).2.1 = _
    rw [hbg]
  · show insertedChunks
        (sevs ++ (batchGo store.batchFails 0 (chunksOf 1000 (dfRows (processedCols cols)))).1) = _
    rw [insertedChunks_append, insertedChunks_of_schema sevs hschema, List.nil_append, hbg]
    show insertedChunks
        (((chunksOf 1000 (dfRows (processedCols cols))).take k).flatMap
            (fun c => [Event.insertBatch c, Event.commitEv])
          ++ [Event.insertBatch ((chunksOf 1000 (dfRows (processedCols cols))).getD k [])]) = _
    rw [insertedChunks_append, insertedChunks_flatMap]
    have h1 : insertedChunks
        [Event.insertBatch ((chunksOf 1000 (dfRows (processedCols cols))).getD k [])] =
        [(chunksOf 1000 (dfRows (processedCols cols))).getD k []] := rfl
    rw [h1, List.take_succ]
    congr 1
    rw [List.getElem?_eq_getElem hklen]
    rw [List.getD_eq_getElem?_getD, List.getElem?_eq_getElem hklen]
    rfl

/-- Claim C4, witness: the store rejects the very first chunk of a one-row
dataset: nothing is persisted, exactly one chunk was attempted, and the
outcome is the failure with the store's text. -/
theorem C4_chunk_failure_keeps_committed_witness :
    (insert_database_run "t" [⟨"a", Dtype.int64, [Value.vInt 1]⟩]
        ⟨true, some ["id", "created_at", "a"], none,
          fun i => if i == 0 then some "boom" else none⟩).outcome
      = Outcome.failure "boom" :=
  (C4_chunk_failure_keeps_committed "t" [⟨"a", Dtype.int64, [Value.vInt 1]⟩]
      ⟨true, some ["id", "created_at", "a"], none,
        fun i => if i == 0 then some "boom" else none⟩
      0 "boom" rfl rfl (fun i hi => absurd hi (Nat.not_lt_zero i)) rfl (by decide)).2.2

/-- Claim C7, counterexample: the connection is NOT released on every exit
path.  `cursor.close(); connection.close()` run only on the fully
successful path; on a run whose first batch write raises, the connection
was acquired but is never closed — the `except` branch returns without
closing it. -/
theorem C7_leak_counterexample :
    (insert_database_run "t" [⟨"a", Dtype.int64, [Value.vInt 1]⟩]
        ⟨true, some ["id", "created_at", "a"], none,
          fun i => if i == 0 then some "batch write refused" else none⟩).connAcquired = true
    ∧ (insert_database_run "t" [⟨"a", Dtype.int64, [Value.vInt 1]⟩]
        ⟨true, some ["id", "created_at", "a"], none,
          fun i => if i == 0 then some "batch write refused" else none⟩).connClosed = false
    ∧ (insert_database_run "t" [⟨"a", Dtype.int64, [Value.vInt 1]⟩]
        ⟨true, some ["id", "created_at", "a"], none,
          fun i => if i == 0 then some "batch write refused" else none⟩).outcome
      = Outcome.failure "batch write refused" := by decide

/-- Claim C7, amended: the connection is closed before return only on the
fully successful path; when connecting fails no connection is acquired;
on every failing run that did acquire the connection (schema-change or
batch-write exception) the connection is left unclosed. -/
theorem C7_connection_close (table : String) (cols : List Column) (store : StoreBehavior) :
    ((∃ m, (insert_database_run table cols store).outcome = Outcome.success m) →
      (insert_database_run table cols store).connAcquired = true
      ∧ (insert_database_run table cols store).connClosed = true)
    ∧ (store.connectOk = false →
      (insert_database_run table cols store).connAcquired = false
      ∧ (insert_database_run table cols store).connClosed = false)
    ∧ (∀ e, (insert_database_run table cols store).outcome = Outcome.failure e →
      (insert_database_run table cols store).connClosed = false)
    ∧ (store.connectOk = true → (insert_database_run table cols store).connAcquired = true) := by
  cases hc : store.connectOk with
  | false =>
    rw [run_connect_false table cols store hc]
    refine ⟨?_, fun _ => ⟨rfl, rfl⟩, fun e _ => rfl, fun h => absurd h (by decide)⟩
    rintro ⟨m, hm⟩
    exact Outcome.noConfusion hm
  | true =>
    rcases hsp2 : schemaPhase store (processedCols cols) with ⟨sevs, serr⟩
    cases serr with
    | some e0 =>
      rw [run_schema_err table cols store sevs e0 hc hsp2]
      refine ⟨?_, fun h => absurd h (by decide), fun e _ => rfl, fun _ => rfl⟩
      rintro ⟨m, hm⟩
      exact Outcome.noConfusion hm
    | none =>
      cases hb2 : (batchGo store.batchFails 0 (chunksOf 1000 (dfRows (processedCols cols)))).2.2 with
      | some e0 =>
        rw [run_batch_err table cols store sevs e0 hc hsp2 hb2]
        refine ⟨?_, fun h => absurd h (by decide), fun e _ => rfl, fun _ => rfl⟩
        rintro ⟨m, hm⟩
        exact Outcome.noConfusion hm
      | none =>
        rw [run_batch_ok table cols store sevs hc hsp2 hb2]
        refine ⟨fun _ => ⟨rfl, rfl⟩, fun h => absurd h (by decide), ?_, fun _ => rfl⟩
        intro e hm
        exact Outcome.noConfusion hm

/-- Claim C7, witness: the amended theorem applied to a successful run
(connection acquired and closed). -/
theorem C7_connection_close_witness :
    (insert_database_run "t" [⟨"a", Dtype.int64, [Value.vInt 1]⟩]
        ⟨true, some ["id", "created_at", "a"], none, fun _ => none⟩).connAcquired = true :=
  (C7_connection_close "t" [⟨"a", Dtype.int64, [Value.vInt 1]⟩]
      ⟨true, some ["id", "created_at", "a"], none, fun _ => none⟩).2.2.2 rfl

/-- Claim C8, counterexample: failure results do NOT begin with a failure
marker glyph.  A connection failure returns the plain string
`Failed to connect to MySQL database`, and a batch-write failure returns
the raw exception text; the ✗ glyph only ever goes to printed output,
never into the returned string. -/
theorem C8_glyph_counterexample :
    resultString (insert_database_run "t" ([] : List Column)
        ⟨false, none, none, fun _ => none⟩).outcome
      = "Failed to connect to MySQL database"
    ∧ strBegins "Failed to connect to MySQL database" "✗" = false
    ∧ strBegins "Failed to connect to MySQL database" "✓" = false
    ∧ resultString (insert_database_run "t" [⟨"a", Dtype.int64, [Value.vInt 1]⟩]
        ⟨true, some ["id", "created_at", "a"], none,
          fun i => if i == 0 then some "Duplicate entry" else none⟩).outcome
      = "Duplicate entry"
    ∧ strBegins "Duplicate entry" "✗" = false := by decide

/-- Claim C8, amended: the returned string begins with the success glyph ✓
exactly when the run succeeds; a failing run returns the raw failure text
with no marker glyph prepended — the fixed connection-failure message when
connecting fails, otherwise exactly the store's exception text. -/
theorem C8_outcome_strings (table : String) (cols : List Column) (store : StoreBehavior) :
    (∀ m, (insert_database_run table cols store).outcome = Outcome.success m →
      strBegins m "✓" = true)
    ∧ (store.connectOk = false →
      resultString (insert_database_run table cols store).outcome =
        "Failed to connect to MySQL database")
    ∧ (∀ e, (insert_database_run table cols store).outcome = Outcome.failure e →
        store.connectOk = true →
        store.schemaFails = some e ∨ ∃ i, store.batchFails i = some e) := by
  cases hc : store.connectOk with
  | false =>
    rw [run_connect_false table cols store hc]
    refine ⟨?_, fun _ => rfl, ?_⟩
    · intro m hm
      exact Outcome.noConfusion hm
    · intro e _ htrue
      exact absurd htrue (by decide)
  | true =>
    rcases hsp2 : schemaPhase store (processedCols cols) with ⟨sevs, serr⟩
    cases serr with
    | some e0 =>
      rw [run_schema_err table cols store sevs e0 hc hsp2]
      refine ⟨?_, fun h => absurd h (by decide), ?_⟩
      · intro m hm
        exact Outcome.noConfusion hm
      · intro e hm _
        rw [Outcome.failure.injEq] at hm
        rw [← hm]
        exact Or.inl (schemaPhase_err store (processedCols cols) e0 (by rw [hsp2]))
    | none =>
      cases hb2 : (batchGo store.batchFails 0 (chunksOf 1000 (dfRows (processedCols cols)))).2.2 with
      | some e0 =>
        rw [run_batch_err table cols store sevs e0 hc hsp2 hb2]
        refine ⟨?_, fun h => absurd h (by decide), ?_⟩
        · intro m hm
          exact Outcome.noConfusion hm
        · intro e hm _
          rw [Outcome.failure.injEq] at hm
          rw [← hm]
          exact Or.inr (batchGo_err_some store.batchFails _ 0 e0 hb2)
      | none =>
        rw [run_batch_ok table cols store sevs hc hsp2 hb2]
        refine ⟨?_, fun h => absurd h (by decide), ?_⟩
        · intro m hm
          rw [Outcome.success.injEq] at hm
          subst hm
          exact strBegins_append_left _ _
            (strBegins_append_left _ _
              (strBegins_append_left _ _
                (strBegins_append_left _ _ (by decide))))
        · intro e hm
          exact absurd hm (fun hh => Outcome.noConfusion hh)

/-- Claim C8, witness: the amended theorem applied to a run whose
connection fails. -/
theorem C8_outcome_strings_witness :
    resultString (insert_database_run "t" ([] : List Column)
        ⟨false, none, none, fun _ => none⟩).outcome
      = "Failed to connect to MySQL database" :=
  (C8_outcome_strings "t" ([] : List Column) ⟨false, none, none, fun _ => none⟩).2.1 rfl

end ExcelJsonDB
